import Mathlib

/-!
Verification development for the chain-data pipeline in `chain-data.py`.

The Python source is shallowly embedded: JSON-like values become the
inductive type `Val`, Python dicts become association lists (source JSON
objects have unique keys), the pandas DataFrame produced by
`process_chain_data` becomes a list of rows, each row the ordered list of
(column, value) pairs of the dict literal built in the source, and code
that can raise a Python exception returns `Except String`.
-/

/-- Values of the JSON data received from the remote API, as Python sees
them after `response.json()`: `None`, booleans, integers, strings, lists
and dicts (dicts as ordered association lists with unique keys). -/
inductive Val where
  | vnull : Val
  | vbool : Bool → Val
  | vint : Int → Val
  | vstr : String → Val
  | varr : List Val → Val
  | vobj : List (String × Val) → Val
deriving Repr

/-- Python truthiness (`not data` in line 47): `None`, `False`, `0`, `""`,
`[]` and an empty dict are falsy, everything else is truthy. -/
def pyTruthy : Val → Bool
  | .vnull => false
  | .vbool b => b
  | .vint n => n != 0
  | .vstr s => s != ""
  | .varr xs => !xs.isEmpty
  | .vobj fs => !fs.isEmpty

/-- Models `isinstance(data, dict)` (line 47). -/
def isDict : Val → Bool
  | .vobj _ => true
  | _ => false

/-- Models `'chains' in data` (line 47): key membership for a dict, false
for every non-dict value. -/
def hasKey (data : Val) (k : String) : Bool :=
  match data with
  | .vobj fs => fs.any (fun kv => kv.1 == k)
  | _ => false

/-- Dict lookup. Source dicts have unique keys, so first match suffices. -/
def pyLookup (fs : List (String × Val)) (k : String) : Option Val :=
  match fs with
  | [] => none
  | (k1, v) :: rest => if k1 = k then some v else pyLookup rest k

/-- Models Python `dict.get(key, default)` as used at lines 55-62. -/
def pyGet (fs : List (String × Val)) (k : String) (d : Val) : Val :=
  (pyLookup fs k).getD d

/-- Python `str.lower`, character-wise ASCII lowercasing (the CPython
version is Unicode-aware; the fields handled here are ASCII). -/
def strLower (s : String) : String := ⟨s.data.map Char.toLower⟩

/-- Models the `.lower()` call at line 56: defined on strings, raises an
`AttributeError` on every other value. -/
def pyLower : Val → Except String Val
  | .vstr s => .ok (.vstr (strLower s))
  | _ => .error "AttributeError"

/-- A row of the DataFrame built by `process_chain_data`: the ordered
(column, value) pairs of the `chain_info` dict literal (lines 54-63). -/
abbrev ChainRecord := List (String × Val)

/-- The `chain_info` dict literal of lines 54-63, with the already
lowercased name `nm` in place of the `.lower()` call result. -/
def buildRecord (fields : List (String × Val)) (nm : Val) : ChainRecord :=
  [("Logo URI", pyGet fields "logo_uri" (.vstr "N/A")),
   ("Name", nm),
   ("Chain ID", pyGet fields "chain_id" (.vstr "N/A")),
   ("PFM Enabled", pyGet fields "pfm_enabled" (.vstr "N/A")),
   ("Chain Type", pyGet fields "chain_type" (.vstr "N/A")),
   ("Is Testnet", pyGet fields "is_testnet" (.vstr "N/A")),
   ("Pretty Name", pyGet fields "pretty_name" (.vstr "N/A")),
   ("Bech32 Prefix", pyGet fields "bech32_prefix" (.vstr ""))]

/-- The body of the loop at lines 52-64: builds the `chain_info` dict for
one raw entry. A non-dict entry raises on `.get`; a non-string
`chain_name` raises on `.lower()` (the default cannot raise, being the
string literal `"N/A"`). -/
def processChain : Val → Except String ChainRecord
  | .vobj fields =>
    match pyLower (pyGet fields "chain_name" (.vstr "N/A")) with
    | .error e => .error e
    | .ok nm => .ok (buildRecord fields nm)
  | _ => .error "AttributeError"

/-- The `for chain in data['chains']` loop (lines 51-64): processes the
entries in order, appending each `chain_info`; the first raising entry
aborts the loop with its exception. -/
def processChains : List Val → Except String (List ChainRecord)
  | [] => .ok []
  | c :: cs =>
    match processChain c with
    | .error e => .error e
    | .ok r =>
      match processChains cs with
      | .error e => .error e
      | .ok rs => .ok (r :: rs)

/-- Models `process_chain_data` (lines 43-69). The guard at line 47 turns
falsy, non-dict, or chains-less input into an empty DataFrame; otherwise
the entries of `data['chains']` are normalized in order. Iterating a
non-list `chains` value in Python either raises directly (int, bool,
None) or yields elements on which `.get` raises (str, dict), so both are
modelled as an exception. -/
def process_chain_data (data : Val) : Except String (List ChainRecord) :=
  if !pyTruthy data || !isDict data || !hasKey data "chains" then
    .ok []
  else
    match data with
    | .vobj fs =>
      match pyLookup fs "chains" with
      | some (.varr cs) => processChains cs
      | _ => .error "TypeError"
    | _ => .error "TypeError"

/-- The column names of every `chain_info` row, in source order. -/
def chainColumns : List String :=
  ["Logo URI", "Name", "Chain ID", "PFM Enabled", "Chain Type",
   "Is Testnet", "Pretty Name", "Bech32 Prefix"]

/-- Python `repr` of a string: wrapped in quotes, preferring single quotes
(embedded-quote escaping is elided; row values here contain no quotes). -/
def pyQuote (s : String) : String :=
  if s.contains '\x27' && !(s.contains '"') then "\"" ++ s ++ "\""
  else String.singleton '\x27' ++ s ++ String.singleton '\x27'

mutual

/-- Python `repr` of a value, as used inside `str` of a container. -/
def pyRepr : Val → String
  | .vnull => "None"
  | .vbool b => if b then "True" else "False"
  | .vint n => toString n
  | .vstr s => pyQuote s
  | .varr xs => "[" ++ pyReprList xs ++ "]"
  | .vobj fs => "\x7b" ++ pyReprFields fs ++ "\x7d"

/-- Comma-separated `repr`s of the elements of a Python list. -/
def pyReprList : List Val → String
  | [] => ""
  | [v] => pyRepr v
  | v :: vs => pyRepr v ++ ", " ++ pyReprList vs

/-- Comma-separated `key: value` `repr`s of the entries of a Python dict. -/
def pyReprFields : List (String × Val) → String
  | [] => ""
  | [(k, v)] => pyQuote k ++ ": " ++ pyRepr v
  | (k, v) :: fs => pyQuote k ++ ": " ++ pyRepr v ++ ", " ++ pyReprFields fs

end

/-- Python `str` of a value, as applied elementwise by
`row.astype(str)` at line 127: a string stays itself, every other value
takes its textual form (`True`/`False`, `None`, decimal integers,
`repr`-ed containers). -/
def pyStr : Val → String
  | .vstr s => s
  | v => pyRepr v

/-- Matching of one regex-pattern character against one text character
under `re.IGNORECASE`: `.` matches any character, anything else matches
itself case-insensitively. -/
def charMatches (pc c : Char) : Bool :=
  pc == '.' || pc.toLower == c.toLower

/-- Match a whole pattern against a prefix of the text. -/
def matchHere : List Char → List Char → Bool
  | [], _ => true
  | _ :: _, [] => false
  | pc :: ps, c :: cs => charMatches pc c && matchHere ps cs

/-- Match a pattern at some offset of the text, like `re.search`. -/
def searchFrom (p : List Char) : List Char → Bool
  | [] => matchHere p []
  | c :: cs => matchHere p (c :: cs) || searchFrom p cs

/-- Models `Series.str.contains(pat, case=False, na=False)` at lines
127-128 for one cell: pandas compiles `pat` as a regular expression
(`regex=True` is the default) with `re.IGNORECASE` and searches the cell
text. The embedding covers the regex fragment whose only metacharacter is
`.`; every other pattern character is a case-insensitive literal. -/
def cellContains (pat text : String) : Bool :=
  searchFrom pat.data text.data

/-- Models the row predicate at lines 127-129: the row matches when the
search term is found in the `str` form of at least one of its cells. -/
def rowMatches (pat : String) (row : ChainRecord) : Bool :=
  row.any (fun kv => cellContains pat (pyStr kv.2))

/-- Models the search step of `main` (lines 125-129): with a falsy (empty)
search term the frame is left untouched, otherwise the rows whose
predicate holds are kept in order. -/
def filterRecords (rows : List ChainRecord) (searchTerm : String) : List ChainRecord :=
  if searchTerm = "" then rows
  else rows.filter (rowMatches searchTerm)

/-- Follows the spec wording for C2 (not the source): case-insensitive
literal substring containment, every query character standing only for
itself. Used to compare the source filter against the claimed one. -/
def litHere : List Char → List Char → Bool
  | [], _ => true
  | _ :: _, [] => false
  | pc :: ps, c :: cs => pc.toLower == c.toLower && litHere ps cs

/-- Follows the spec wording for C2 (not the source): literal
case-insensitive substring search at some offset of the text. -/
def litSearch (p : List Char) : List Char → Bool
  | [] => litHere p []
  | c :: cs => litHere p (c :: cs) || litSearch p cs

/-- Follows the spec wording for C2 (not the source): a row matches when
the query is a literal case-insensitive substring of the `str` form of at
least one of its cells. -/
def specLiteralRowMatches (q : String) (row : ChainRecord) : Bool :=
  row.any (fun kv => litSearch q.data (pyStr kv.2).data)

/-- Outcome of the HTTP GET at line 31 together with the
`raise_for_status` check at line 32: either a parsed JSON body, or a
`requests.RequestException` (transport failure or non-2xx status) whose
message is `msg`. -/
inductive HttpResult where
  | success : Val → HttpResult
  | failure : String → HttpResult

/-- Models `fetch_chain_data` (lines 22-40) for a given network outcome:
on success the parsed body is returned; on a `RequestException` the
handler at lines 37-40 displays an error via `st.error` and returns
`None`. The second component collects the messages displayed with
`st.error`. -/
def fetch_chain_data (r : HttpResult) : Option Val × List String :=
  match r with
  | .success body => (some body, [])
  | .failure e => (none, ["Error fetching data from API: " ++ e])

/-- Models the data path of `main` (lines 89-161) through the
`df.empty` early return: fetch, normalize (a `None` fetch result is the
embedded `vnull`), and stop with a warning when no rows were produced.
The surrounding `try/except` (lines 90, 159-161) converts any exception
into the unexpected-error message, so no fault escapes `main`. On
non-empty data the rows are handed to the search/sort/render stages
(the search stage is `filterRecords`). The first component is the row
set reaching those stages (`none` when the run stopped early), the second
the warning/error messages displayed. -/
def main_run (r : HttpResult) : Option (List ChainRecord) × List String :=
  let fr := fetch_chain_data r
  match process_chain_data (fr.1.getD Val.vnull) with
  | .error e => (none, fr.2 ++ ["An unexpected error occurred: " ++ e])
  | .ok rows =>
    if rows.isEmpty then (none, fr.2 ++ ["No data available. Please try again later."])
    else (some rows, fr.2)

/-- The three toggle values (lines 101-105) forming the argument tuple of
`fetch_chain_data`, which is the cache key of `st.cache_data`. -/
structure FetchParams where
  include_evm : Bool
  include_svm : Bool
  only_testnets : Bool
deriving DecidableEq

/-- The cache time-to-live of the `st.cache_data` decorator at line 21:
`timedelta(hours=1)`, in seconds. -/
def cacheTTL : Nat := 3600

/-- Modelled from the spec: the state of the `st.cache_data` store (the
decorator's machinery is streamlit library code, not in this repository).
Entries map a `FetchParams` key to the cached return value and the time
it was stored. -/
abbrev CacheState := List (FetchParams × Option Val × Nat)

/-- Modelled from the spec: a cached entry is served while it is younger
than the one-hour time-to-live. -/
def cacheFresh (now stored : Nat) : Bool := now < stored + cacheTTL

/-- Modelled from the spec: look up a fresh cache entry for a key. -/
def cacheLookup (c : CacheState) (p : FetchParams) (now : Nat) : Option (Option Val) :=
  match c.find? (fun ent => ent.1 == p && cacheFresh now ent.2.2) with
  | some ent => some ent.2.1
  | none => none

/-- Modelled from the spec: one call of the `st.cache_data`-decorated
`fetch_chain_data`. A fresh cached value for the exact parameter tuple is
returned without a network round trip; otherwise the body runs against
the network outcome `net` and its return value is stored. The third
component records whether a network request was issued. -/
def cachedFetch (c : CacheState) (p : FetchParams) (now : Nat) (net : HttpResult) :
    Option Val × CacheState × Bool :=
  match cacheLookup c p now with
  | some v => (v, c, false)
  | none =>
    ((fetch_chain_data net).1, (p, (fetch_chain_data net).1, now) :: c, true)

/-- The value a normalized row gives for a column, when normalization of
the entry succeeded. -/
def fieldOf (e : Except String ChainRecord) (col : String) : Option Val :=
  match e with
  | .ok row => pyLookup row col
  | .error _ => none

/-- The seven source keys whose values are passed through unchanged
(every `chain_info` entry except `Name`), with their column names. -/
def passthroughFields : List (String × String) :=
  [("logo_uri", "Logo URI"), ("chain_id", "Chain ID"),
   ("pfm_enabled", "PFM Enabled"), ("chain_type", "Chain Type"),
   ("is_testnet", "Is Testnet"), ("pretty_name", "Pretty Name"),
   ("bech32_prefix", "Bech32 Prefix")]

/-- The normalized row of the all-defaults entry (an entry with no
recognized key). -/
def rowDefaults : ChainRecord :=
  [("Logo URI", Val.vstr "N/A"), ("Name", Val.vstr "n/a"),
   ("Chain ID", Val.vstr "N/A"), ("PFM Enabled", Val.vstr "N/A"),
   ("Chain Type", Val.vstr "N/A"), ("Is Testnet", Val.vstr "N/A"),
   ("Pretty Name", Val.vstr "N/A"), ("Bech32 Prefix", Val.vstr "")]

/-- A concrete raw input with one entry carrying a name and a chain id. -/
def dataOsmosis : Val :=
  .vobj [("chains", .varr
    [.vobj [("chain_name", Val.vstr "Osmosis"), ("chain_id", Val.vstr "osmosis-1")]])]

/-- The normalized row of the entry inside `dataOsmosis`. -/
def rowOsmosis : ChainRecord :=
  [("Logo URI", Val.vstr "N/A"), ("Name", Val.vstr "osmosis"),
   ("Chain ID", Val.vstr "osmosis-1"), ("PFM Enabled", Val.vstr "N/A"),
   ("Chain Type", Val.vstr "N/A"), ("Is Testnet", Val.vstr "N/A"),
   ("Pretty Name", Val.vstr "N/A"), ("Bech32 Prefix", Val.vstr "")]

/-- A one-column row whose single cell reads `ab`, for the filter claims. -/
def rowAb : ChainRecord := [("Name", Val.vstr "ab")]

/-- A sample parameter tuple: EVM and SVM included, mainnets. -/
def sampleParamsA : FetchParams := ⟨true, true, false⟩

/-- A second sample parameter tuple, differing in `only_testnets`. -/
def sampleParamsB : FetchParams := ⟨true, true, true⟩

lemma pyGet_of_none {fs : List (String × Val)} {k : String} {d : Val}
    (h : pyLookup fs k = none) : pyGet fs k d = d := by
  simp [pyGet, h]

lemma pyGet_of_some {fs : List (String × Val)} {k : String} {v d : Val}
    (h : pyLookup fs k = some v) : pyGet fs k d = v := by
  simp [pyGet, h]

lemma buildRecord_columns (fields : List (String × Val)) (nm : Val) :
    (buildRecord fields nm).map Prod.fst = chainColumns := rfl

lemma processChain_ok {ch : Val} {row : ChainRecord}
    (h : processChain ch = .ok row) :
    ∃ fields nm, ch = .vobj fields ∧
      pyLower (pyGet fields "chain_name" (.vstr "N/A")) = .ok nm ∧
      row = buildRecord fields nm := by
  cases ch with
  | vobj fields =>
    refine ⟨fields, ?_⟩
    simp only [processChain] at h
    cases hl : pyLower (pyGet fields "chain_name" (.vstr "N/A")) with
    | error e => rw [hl] at h; simp at h
    | ok nm =>
      rw [hl] at h
      simp at h
      exact ⟨nm, rfl, rfl, h.symm⟩
  | vnull => simp [processChain] at h
  | vbool b => simp [processChain] at h
  | vint n => simp [processChain] at h
  | vstr s => simp [processChain] at h
  | varr xs => simp [processChain] at h

lemma processChains_mem {cs : List Val} {rows : List ChainRecord}
    (h : processChains cs = .ok rows) :
    ∀ row ∈ rows, ∃ c ∈ cs, processChain c = .ok row := by
  induction cs generalizing rows with
  | nil =>
    simp [processChains] at h
    subst h
    simp
  | cons c cs ih =>
    simp only [processChains] at h
    cases hc : processChain c with
    | error e => rw [hc] at h; simp at h
    | ok r =>
      rw [hc] at h
      cases hcs : processChains cs with
      | error e => rw [hcs] at h; simp at h
      | ok rs =>
        rw [hcs] at h
        simp at h
        subst h
        intro row hrow
        rcases List.mem_cons.mp hrow with rfl | hrow2
        · exact ⟨c, List.mem_cons_self c cs, hc⟩
        · obtain ⟨c2, hc2, hok⟩ := ih hcs row hrow2
          exact ⟨c2, List.mem_cons_of_mem c hc2, hok⟩

lemma buildRecord_lookup (fields : List (String × Val)) (nm : Val) :
    pyLookup (buildRecord fields nm) "Logo URI" =
        some (pyGet fields "logo_uri" (.vstr "N/A")) ∧
    pyLookup (buildRecord fields nm) "Name" = some nm ∧
    pyLookup (buildRecord fields nm) "Chain ID" =
        some (pyGet fields "chain_id" (.vstr "N/A")) ∧
    pyLookup (buildRecord fields nm) "PFM Enabled" =
        some (pyGet fields "pfm_enabled" (.vstr "N/A")) ∧
    pyLookup (buildRecord fields nm) "Chain Type" =
        some (pyGet fields "chain_type" (.vstr "N/A")) ∧
    pyLookup (buildRecord fields nm) "Is Testnet" =
        some (pyGet fields "is_testnet" (.vstr "N/A")) ∧
    pyLookup (buildRecord fields nm) "Pretty Name" =
        some (pyGet fields "pretty_name" (.vstr "N/A")) ∧
    pyLookup (buildRecord fields nm) "Bech32 Prefix" =
        some (pyGet fields "bech32_prefix" (.vstr "")) :=
  ⟨rfl, rfl, rfl, rfl, rfl, rfl, rfl, rfl⟩

lemma process_chain_data_rows {data : Val} {rows : List ChainRecord}
    (h : process_chain_data data = .ok rows) :
    rows = [] ∨ ∃ cs, processChains cs = .ok rows := by
  unfold process_chain_data at h
  split at h
  · simp at h
    exact Or.inl h
  · split at h
    · split at h
      · exact Or.inr ⟨_, h⟩
      · simp at h
    · simp at h

/-- C1 counterexample: the claim states that every absent field other
than `Bech32 Prefix` defaults to the sentinel `"N/A"`, but for an entry
lacking `chain_name` the produced `Name` value is `"n/a"` — line 56
lowercases the `"N/A"` default itself — and `"n/a"` differs from
`"N/A"`. -/
theorem record_defaults_counterexample :
    process_chain_data (Val.vobj [("chains", Val.varr [Val.vobj []])]) =
      .ok [rowDefaults] ∧
    pyLookup rowDefaults "Name" = some (Val.vstr "n/a") ∧
    ("n/a" : String) ≠ "N/A" :=
  ⟨rfl, rfl, by decide⟩

/-- C1 (amended): every row produced by a successful `process_chain_data`
run has exactly the eight columns, in order; and in a successfully
normalized entry every absent source key receives its default — `"N/A"`
for every column except `Name`, whose stored default is the lowercased
`"n/a"`, and `Bech32 Prefix`, whose default is the empty string. -/
theorem chain_records_complete_with_defaults :
    (∀ data rows, process_chain_data data = .ok rows →
      ∀ row ∈ rows, row.map Prod.fst = chainColumns) ∧
    (∀ fields row, processChain (.vobj fields) = .ok row →
      (pyLookup fields "logo_uri" = none →
        pyLookup row "Logo URI" = some (Val.vstr "N/A")) ∧
      (pyLookup fields "chain_name" = none →
        pyLookup row "Name" = some (Val.vstr "n/a")) ∧
      (pyLookup fields "chain_id" = none →
        pyLookup row "Chain ID" = some (Val.vstr "N/A")) ∧
      (pyLookup fields "pfm_enabled" = none →
        pyLookup row "PFM Enabled" = some (Val.vstr "N/A")) ∧
      (pyLookup fields "chain_type" = none →
        pyLookup row "Chain Type" = some (Val.vstr "N/A")) ∧
      (pyLookup fields "is_testnet" = none →
        pyLookup row "Is Testnet" = some (Val.vstr "N/A")) ∧
      (pyLookup fields "pretty_name" = none →
        pyLookup row "Pretty Name" = some (Val.vstr "N/A")) ∧
      (pyLookup fields "bech32_prefix" = none →
        pyLookup row "Bech32 Prefix" = some (Val.vstr ""))) := by
  constructor
  · intro data rows h row hrow
    rcases process_chain_data_rows h with rfl | ⟨cs, hcs⟩
    · simp at hrow
    · obtain ⟨c, _, hok⟩ := processChains_mem hcs row hrow
      obtain ⟨fields, nm, _, _, rfl⟩ := processChain_ok hok
      exact buildRecord_columns fields nm
  · intro fields row h
    obtain ⟨fields2, nm, heq, hl, hroweq⟩ := processChain_ok h
    injection heq with hf
    subst hf
    subst hroweq
    have hb := buildRecord_lookup fields nm
    refine ⟨?_, ?_, ?_, ?_, ?_, ?_, ?_, ?_⟩
    · intro habs; rw [hb.1, pyGet_of_none habs]
    · intro habs
      rw [pyGet_of_none habs] at hl
      have hnm : nm = Val.vstr "n/a" :=
        (Except.ok.inj ((show pyLower (Val.vstr "N/A") =
          Except.ok (Val.vstr "n/a") from rfl) ▸ hl).symm)
      rw [hb.2.1, hnm]
    · intro habs; rw [hb.2.2.1, pyGet_of_none habs]
    · intro habs; rw [hb.2.2.2.1, pyGet_of_none habs]
    · intro habs; rw [hb.2.2.2.2.1, pyGet_of_none habs]
    · intro habs; rw [hb.2.2.2.2.2.1, pyGet_of_none habs]
    · intro habs; rw [hb.2.2.2.2.2.2.1, pyGet_of_none habs]
    · intro habs; rw [hb.2.2.2.2.2.2.2, pyGet_of_none habs]

/-- Evaluates the amended C1 theorem at the `dataOsmosis` input (column
completeness) and at the empty raw entry (the `Name` default). -/
theorem chain_records_complete_with_defaults_witness :
    rowOsmosis.map Prod.fst = chainColumns ∧
    pyLookup rowDefaults "Name" = some (Val.vstr "n/a") :=
  ⟨chain_records_complete_with_defaults.1 dataOsmosis [rowOsmosis] rfl rowOsmosis
      (List.mem_singleton.mpr rfl),
   (chain_records_complete_with_defaults.2 [] rowDefaults rfl).2.1 rfl⟩

/-- C4 counterexample: the claim says an entry without `chain_name` gets
the sentinel `"N/A"` as its name, but the normalized name is `"n/a"`
(line 56 lowercases the default too), and `"n/a"` differs from `"N/A"`. -/
theorem name_default_counterexample :
    fieldOf (processChain (Val.vobj [("chain_id", Val.vstr "osmosis-1")])) "Name" =
      some (Val.vstr "n/a") ∧
    ("n/a" : String) ≠ "N/A" :=
  ⟨rfl, by decide⟩

/-- C4 (amended): for an entry lacking `chain_name` the normalized name is
`"n/a"` (the `"N/A"` default lowercased by line 56); for an entry whose
`chain_name` is present as a string, the name is that string lowercased. -/
theorem name_field_lowercased (fields : List (String × Val)) :
    (pyLookup fields "chain_name" = none →
      fieldOf (processChain (.vobj fields)) "Name" = some (Val.vstr "n/a")) ∧
    (∀ s, pyLookup fields "chain_name" = some (.vstr s) →
      fieldOf (processChain (.vobj fields)) "Name" = some (Val.vstr (strLower s))) := by
  constructor
  · intro habs
    have hget : pyGet fields "chain_name" (.vstr "N/A") = .vstr "N/A" :=
      pyGet_of_none habs
    simp only [processChain, hget]
    rfl
  · intro s hs
    have hget : pyGet fields "chain_name" (.vstr "N/A") = .vstr s :=
      pyGet_of_some hs
    simp only [processChain, hget]
    rfl

/-- Evaluates the amended C4 theorem at an empty entry and at an entry
with the name `Osmosis`. -/
theorem name_field_lowercased_witness :
    fieldOf (processChain (Val.vobj [])) "Name" = some (Val.vstr "n/a") ∧
    fieldOf (processChain (Val.vobj [("chain_name", Val.vstr "Osmosis")])) "Name" =
      some (Val.vstr "osmosis") :=
  ⟨(name_field_lowercased []).1 rfl,
   (name_field_lowercased [("chain_name", Val.vstr "Osmosis")]).2 "Osmosis" rfl⟩

/-- C5: an input that is falsy (in particular null), not a dict, or a
dict without the `chains` key makes `process_chain_data` return the empty
row set without raising. -/
theorem invalid_input_yields_empty (data : Val)
    (h : pyTruthy data = false ∨ isDict data = false ∨
      hasKey data "chains" = false) :
    process_chain_data data = .ok [] := by
  unfold process_chain_data
  rcases h with h | h | h <;> simp [h]

/-- Evaluates the C5 theorem at the null input. -/
theorem invalid_input_yields_empty_witness :
    process_chain_data Val.vnull = .ok [] :=
  invalid_input_yields_empty Val.vnull (Or.inl rfl)

/-- C10: normalization is not total — an entry whose `chain_name` is a
non-string (here the number 1) makes `process_chain_data` raise an
`AttributeError` at line 56 — while each of the seven other fields is
passed through unchanged whatever its value. -/
theorem nonstring_name_raises :
    process_chain_data
        (Val.vobj [("chains", Val.varr [Val.vobj [("chain_name", Val.vint 1)]])]) =
      .error "AttributeError" ∧
    ∀ kv ∈ passthroughFields, ∀ v : Val,
      fieldOf (processChain (Val.vobj [(kv.1, v)])) kv.2 = some v := by
  refine ⟨rfl, ?_⟩
  intro kv hkv v
  fin_cases hkv <;> rfl

/-- Evaluates the C10 theorem at the `is_testnet` field holding a
boolean. -/
theorem nonstring_name_raises_witness :
    fieldOf (processChain (Val.vobj [("is_testnet", Val.vbool true)])) "Is Testnet" =
      some (Val.vbool true) :=
  nonstring_name_raises.2 ("is_testnet", "Is Testnet")
    (by simp [passthroughFields]) (Val.vbool true)

/-- C2 counterexample: `str.contains` compiles the search term as a
regular expression, so the query `a.` keeps a row whose only cell reads
`ab` (the `.` matches `b`), while the claimed literal case-insensitive
substring containment of `a.` in `ab` is false. -/
theorem query_regex_not_literal :
    filterRecords [rowAb] "a." = [rowAb] ∧
    specLiteralRowMatches "a." rowAb = false :=
  ⟨rfl, rfl⟩

/-- C2 (amended): for a non-empty query, the filter keeps a record iff the
query, compiled as a case-insensitive regular expression, matches within
the string representation of at least one field; regex metacharacters
such as `.` keep their regex meaning instead of standing for themselves. -/
theorem filter_keeps_regex_matches (rows : List ChainRecord) (q : String)
    (row : ChainRecord) (hq : q ≠ "") :
    row ∈ filterRecords rows q ↔ row ∈ rows ∧ rowMatches q row = true := by
  simp [filterRecords, hq, List.mem_filter]

/-- Evaluates the amended C2 theorem at the row `ab` and the query
`a.`. -/
theorem filter_keeps_regex_matches_witness :
    rowAb ∈ filterRecords [rowAb] "a." ↔
      rowAb ∈ [rowAb] ∧ rowMatches "a." rowAb = true :=
  filter_keeps_regex_matches [rowAb] "a." rowAb (by decide)

/-- C8: filtering with the empty query is the identity on the record set,
in content and order (line 125 only filters when the search term is
truthy). -/
theorem empty_query_identity (rows : List ChainRecord) :
    filterRecords rows "" = rows := by
  simp [filterRecords]

/-- C9: filtering is idempotent — filtering an already filtered record
set with the same query changes nothing. -/
theorem filter_idempotent (rows : List ChainRecord) (q : String) :
    filterRecords (filterRecords rows q) q = filterRecords rows q := by
  by_cases hq : q = ""
  · simp [filterRecords, hq]
  · simp [filterRecords, hq, List.filter_filter]

/-- C6: on a network failure or non-success HTTP status with message `e`,
the fetcher returns `None` instead of raising, after displaying a
non-empty cause description; the pipeline then normalizes `None` to the
empty row set, and `main` ends the run with the no-data warning instead
of letting any fault escape. -/
theorem fetch_failure_contained (e : String) :
    (fetch_chain_data (.failure e)).1 = none ∧
    (fetch_chain_data (.failure e)).2 = ["Error fetching data from API: " ++ e] ∧
    ("Error fetching data from API: " ++ e) ≠ "" ∧
    process_chain_data Val.vnull = .ok [] ∧
    main_run (.failure e) =
      (none, ["Error fetching data from API: " ++ e,
              "No data available. Please try again later."]) := by
  refine ⟨rfl, rfl, ?_, rfl, rfl⟩
  intro h
  have hlen := congrArg String.length h
  rw [String.length_append] at hlen
  have h30 : ("Error fetching data from API: " : String).length = 30 := rfl
  have h0 : ("" : String).length = 0 := rfl
  rw [h30, h0] at hlen
  omega

/-- C7: starting from an empty cache, the first fetch for a parameter
tuple goes to the network; a second fetch with the identical tuple within
the one-hour time-to-live is served from the cache (no network request)
and returns the first result; a fetch with any parameter changed issues a
new network request. -/
theorem cache_single_roundtrip (p q : FetchParams) (t1 t2 : Nat)
    (n1 n2 : HttpResult) (hfresh : t2 < t1 + cacheTTL) (hpq : q ≠ p) :
    (cachedFetch [] p t1 n1).2.2 = true ∧
    (cachedFetch (cachedFetch [] p t1 n1).2.1 p t2 n2).2.2 = false ∧
    (cachedFetch (cachedFetch [] p t1 n1).2.1 p t2 n2).1 =
      (cachedFetch [] p t1 n1).1 ∧
    (cachedFetch (cachedFetch [] p t1 n1).2.1 q t2 n2).2.2 = true := by
  have hstate : (cachedFetch [] p t1 n1).2.1 =
      [(p, (fetch_chain_data n1).1, t1)] := rfl
  have hv1 : (cachedFetch [] p t1 n1).1 = (fetch_chain_data n1).1 := rfl
  have hfind : cacheLookup [(p, (fetch_chain_data n1).1, t1)] p t2 =
      some (fetch_chain_data n1).1 := by
    simp [cacheLookup, List.find?, cacheFresh, hfresh]
  have hne : (p == q) = false := by
    simp only [beq_eq_false_iff_ne]
    exact Ne.symm hpq
  have hfindq : cacheLookup [(p, (fetch_chain_data n1).1, t1)] q t2 = none := by
    simp [cacheLookup, List.find?, hne]
  refine ⟨rfl, ?_, ?_, ?_⟩
  · rw [hstate]
    simp [cachedFetch, hfind]
  · rw [hstate, hv1]
    simp [cachedFetch, hfind]
  · rw [hstate]
    simp [cachedFetch, hfindq]

/-- Evaluates the C7 theorem for two calls at times 0 and 10 seconds. -/
theorem cache_single_roundtrip_witness :
    (cachedFetch [] sampleParamsA 0 (.success Val.vnull)).2.2 = true ∧
    (cachedFetch (cachedFetch [] sampleParamsA 0 (.success Val.vnull)).2.1
      sampleParamsA 10 (.failure "x")).2.2 = false ∧
    (cachedFetch (cachedFetch [] sampleParamsA 0 (.success Val.vnull)).2.1
      sampleParamsA 10 (.failure "x")).1 =
      (cachedFetch [] sampleParamsA 0 (.success Val.vnull)).1 ∧
    (cachedFetch (cachedFetch [] sampleParamsA 0 (.success Val.vnull)).2.1
      sampleParamsB 10 (.failure "x")).2.2 = true :=
  cache_single_roundtrip sampleParamsA sampleParamsB 0 10
    (.success Val.vnull) (.failure "x") (by decide) (by decide)
